import Mathlib

/-!
Verification of the client-side security and cart layer of the
lightningPete storefront (src/src/scripts/security.js and
src/src/scripts/app.js), shallowly embedded in Lean.

JavaScript strings are modelled as `List Char`, JavaScript numbers
(where the claims need them) as `ℚ` for finite values with an explicit
`nan` constructor where `Date.now()` anomalies matter, and fallible or
throwing code returns `Option` / `Except`.  Security-event emission is
made explicit: each embedded operation returns the list of event names
it logs, in order.
-/

namespace LP

/-- The character class of JavaScript's `\s` regex escape and of
`String.prototype.trim`: ASCII whitespace plus the Unicode space
separators, line separators and the BOM. -/
def jsSpace (c : Char) : Bool :=
  c == ' ' || c == '\t' || c == '\n' || c == '\r' ||
  c == '\x0b' || c == '\x0c' ||
  c.toNat == 0xA0 || c.toNat == 0x1680 ||
  (0x2000 ≤ c.toNat && c.toNat ≤ 0x200A) ||
  c.toNat == 0x2028 || c.toNat == 0x2029 || c.toNat == 0x202F ||
  c.toNat == 0x205F || c.toNat == 0x3000 || c.toNat == 0xFEFF

/-- `String.prototype.trim`: drop the leading and trailing whitespace. -/
def trimChars (l : List Char) : List Char :=
  ((l.dropWhile jsSpace).reverse.dropWhile jsSpace).reverse

/-- `String.prototype.toLowerCase`, for the ASCII range the repository
uses. -/
def lowerChars (l : List Char) : List Char :=
  l.map Char.toLower

/-- Substring test, the model of `String.prototype.includes`. -/
def containsSub (needle : List Char) : List Char → Bool
  | [] => needle == []
  | c :: rest => needle.isPrefixOf (c :: rest) || containsSub needle rest

/-- The escaping performed by `div.textContent = s; div.innerHTML`
(the body of `SecurityManager.sanitizeHTML`): the three characters special
in an HTML text node are replaced by entities. -/
def escapeHTMLChars (l : List Char) : List Char :=
  l.flatMap fun c =>
    if c == '&' then "&amp;".data
    else if c == '<' then "&lt;".data
    else if c == '>' then "&gt;".data
    else [c]

/-- Decimal digit characters, used when rendering numbers into keys and
token payloads. -/
def digitChar (d : Nat) : Char :=
  match d with
  | 0 => '0' | 1 => '1' | 2 => '2' | 3 => '3' | 4 => '4'
  | 5 => '5' | 6 => '6' | 7 => '7' | 8 => '8' | _ => '9'

/-- Numeric value of a decimal digit character. -/
def digitVal (c : Char) : Nat :=
  c.toNat - 48

/-- Fuel-driven digit rendering; the fuel only bounds the recursion
depth and `natChars` always supplies enough. -/
def natCharsAux : Nat → Nat → List Char
  | 0, _ => []
  | fuel + 1, n =>
    if n < 10 then [digitChar n]
    else natCharsAux fuel (n / 10) ++ [digitChar (n % 10)]

/-- The decimal rendering of a natural number, the model of JavaScript
string interpolation of a non-negative integer. -/
def natChars (n : Nat) : List Char :=
  natCharsAux (n + 1) n

/-- Value of a list of decimal digit characters, most significant
first. -/
def parseDigits (l : List Char) : Nat :=
  l.foldl (fun a c => 10 * a + digitVal c) 0

/-- A hexadecimal digit, as accepted by `parseInt` once a `0x` prefix
has selected radix 16. -/
def isHexDigitChar (c : Char) : Bool :=
  c.isDigit || ('a' ≤ c && c ≤ 'f') || ('A' ≤ c && c ≤ 'F')

/-- Numeric value of a hexadecimal digit character. -/
def hexVal (c : Char) : Nat :=
  if c.isDigit then c.toNat - 48
  else if 'a' ≤ c && c ≤ 'f' then c.toNat - 87
  else c.toNat - 55

/-- Value of a list of hexadecimal digit characters, most significant
first. -/
def parseHexDigits (l : List Char) : Nat :=
  l.foldl (fun a c => 16 * a + hexVal c) 0

/-- Whether the magnitude part starts with the `0x`/`0X` marker that
makes a no-radix `parseInt` call switch to base 16. -/
def hexMark (mag : List Char) : Bool :=
  match mag with
  | c0 :: c1 :: _ => c0 == '0' && (c1 == 'x' || c1 == 'X')
  | _ => false

/-- Magnitude part of `parseInt` after whitespace and sign: a `0x`/`0X`
marker selects radix 16 (the auto-detection of the no-radix call at
security.js:24), otherwise the longest run of decimal digits is taken;
no digit at all is `NaN` (here `none`). -/
def parseIntMag (mag : List Char) : Option Nat :=
  if hexMark mag then
    let ds := (mag.drop 2).takeWhile isHexDigitChar
    if ds.isEmpty then none else some (parseHexDigits ds)
  else
    let ds := mag.takeWhile Char.isDigit
    if ds.isEmpty then none else some (parseDigits ds)

/-- JavaScript `parseInt` called without a radix, as the token verifier
does: skip leading whitespace, take an optional sign, then parse the
magnitude in base 16 behind a `0x`/`0X` marker and in base 10
otherwise; `NaN` (here `none`) when no digit is found. -/
def parseInt (l : List Char) : Option Int :=
  match l.dropWhile jsSpace with
  | [] => none
  | c :: r =>
    if c == '-' then
      (parseIntMag r).map fun n => -(n : Int)
    else if c == '+' then
      (parseIntMag r).map fun n => (n : Int)
    else
      (parseIntMag (c :: r)).map fun n => (n : Int)

/-- JavaScript `parseFloat` on the decimal shapes the repository feeds
it (optional sign, integer part, optional fractional part; the exponent
form does not occur in the sources): `none` models `NaN`. -/
def parseFloat (l : List Char) : Option ℚ :=
  let t := l.dropWhile jsSpace
  let signAndRest : Bool × List Char :=
    match t with
    | '-' :: r => (true, r)
    | '+' :: r => (false, r)
    | _ => (false, t)
  let neg := signAndRest.1
  let t1 := signAndRest.2
  let intPart := t1.takeWhile Char.isDigit
  let rest := t1.drop intPart.length
  let fracPart : List Char :=
    match rest with
    | '.' :: r2 => r2.takeWhile Char.isDigit
    | _ => []
  if intPart.isEmpty && fracPart.isEmpty then none
  else
    let ip : ℚ := (parseDigits intPart : ℕ)
    let fp : ℚ := (parseDigits fracPart : ℕ) / (10 ^ fracPart.length)
    some (if neg then -(ip + fp) else ip + fp)

/-- Decidable equality for `Except`, used to state concrete facts about
`validateCart` results. -/
instance {α β : Type} [DecidableEq α] [DecidableEq β] :
    DecidableEq (Except α β) := fun a b =>
  match a, b with
  | .error x, .error y =>
    if h : x = y then .isTrue (by rw [h]) else
      .isFalse (by intro he; cases he; exact h rfl)
  | .error _, .ok _ => .isFalse (by intro he; cases he)
  | .ok _, .error _ => .isFalse (by intro he; cases he)
  | .ok x, .ok y =>
    if h : x = y then .isTrue (by rw [h]) else
      .isFalse (by intro he; cases he; exact h rfl)

/-! ## JavaScript values

`validateCartItem` and `sanitizeInput` receive arbitrary values and
begin with `typeof` checks, so candidate fields are modelled as a sum of
a string, a finite number, and everything else. -/

/-- A JavaScript value as far as the validators inspect one: a string, a
finite number, or anything else (`null`, `undefined`, objects, booleans,
…).  `NaN` never arises in the claims under study. -/
inductive JSVal where
  | str (s : List Char)
  | num (q : ℚ)
  | other
deriving DecidableEq

/-- `typeof v === 'string'`. -/
def JSVal.isStr : JSVal → Bool
  | .str _ => true
  | _ => false

/-- JavaScript truthiness of the values the validator stores: the empty
string, `0` and the non-string/non-number values are falsy. -/
def jsTruthy : JSVal → Bool
  | .str s => !(s == [])
  | .num q => !(q == 0)
  | .other => false

/-! ## Cart item validation (`SecurityManager.validateCartItem`) -/

/-- A candidate cart item: the five fields of the object handed to
`validateCartItem`, each an arbitrary JavaScript value. -/
structure CandidateItem where
  id : JSVal
  title : JSVal
  price : JSVal
  image : JSVal
  quantity : JSVal
deriving DecidableEq

/-- The Shopify product-id pattern `/^gid:\/\/shopify\/Product\/\d+$/`. -/
def idPattern (s : List Char) : Bool :=
  let p := "gid://shopify/Product/".data
  p.isPrefixOf s && !(s.drop p.length).isEmpty && (s.drop p.length).all Char.isDigit

/-- A character allowed by the title pattern
`/^[a-zA-Z0-9\s\-_.,!?()]{1,100}$/`. -/
def titleChar (c : Char) : Bool :=
  c.isAlphanum || jsSpace c || c == '-' || c == '_' || c == '.' ||
  c == ',' || c == '!' || c == '?' || c == '(' || c == ')'

/-- Field predicate for `item.id`: a string matching the Shopify gid
pattern. -/
def idOk (v : JSVal) : Bool :=
  match v with
  | .str s => idPattern s
  | _ => false

/-- Field predicate for `item.title`: a string of 1 to 100 allowed
characters. -/
def titleOk (v : JSVal) : Bool :=
  match v with
  | .str s => s.all titleChar && 1 ≤ s.length && s.length ≤ 100
  | _ => false

/-- Field predicate for `item.price`: a number strictly between 0 and
10000. -/
def priceOk (v : JSVal) : Bool :=
  match v with
  | .num q => 0 < q && q < 10000
  | _ => false

/-- Field predicate for `item.image`: a string that starts with
`https://` and contains `cdn.shopify.com` or `shopify.com` as a
substring — the check `validateCartItem` actually performs. -/
def imageOk (v : JSVal) : Bool :=
  match v with
  | .str s =>
    "https://".data.isPrefixOf s &&
    (containsSub "cdn.shopify.com".data s || containsSub "shopify.com".data s)
  | _ => false

/-- Field predicate for `item.quantity`: `Number.isInteger` and between
1 and 10. -/
def quantityOk (v : JSVal) : Bool :=
  match v with
  | .num q => q.den == 1 && 1 ≤ q && q ≤ 10
  | _ => false

/-- All five field checks of `validateCartItem`, in the code's order. -/
def itemValid (item : CandidateItem) : Bool :=
  idOk item.id && titleOk item.title && priceOk item.price &&
  imageOk item.image && quantityOk item.quantity

/-- `SecurityManager.validateCartItem`: each field is checked in turn;
the first failure logs one event naming the field and returns `null`.
When every field passed, the code returns the validated object behind a
final truthiness check on the five stored fields.  The second component
is the list of security events logged by the call. -/
def validateCartItem (item : CandidateItem) : Option CandidateItem × List String :=
  if idOk item.id then
    if titleOk item.title then
      if priceOk item.price then
        if imageOk item.image then
          if quantityOk item.quantity then
            if jsTruthy item.id && jsTruthy item.title && jsTruthy item.price &&
               jsTruthy item.image && jsTruthy item.quantity then
              (some item, [])
            else (none, [])
          else (none, ["INVALID_PRODUCT_QUANTITY"])
        else (none, ["INVALID_PRODUCT_IMAGE"])
      else (none, ["INVALID_PRODUCT_PRICE"])
    else (none, ["INVALID_PRODUCT_TITLE"])
  else (none, ["INVALID_PRODUCT_ID"])

/-- Maps an event name emitted by `validateCartItem` to the failure of
the field it names. -/
def eventNamesFailedField (e : String) (item : CandidateItem) : Bool :=
  if e == "INVALID_PRODUCT_ID" then !(idOk item.id)
  else if e == "INVALID_PRODUCT_TITLE" then !(titleOk item.title)
  else if e == "INVALID_PRODUCT_PRICE" then !(priceOk item.price)
  else if e == "INVALID_PRODUCT_IMAGE" then !(imageOk item.image)
  else if e == "INVALID_PRODUCT_QUANTITY" then !(quantityOk item.quantity)
  else false

/-! ### Claim C1 states the image predicate as a host allow-list.
The next two definitions follow the claim's words (they are the spec
side of that refinement, not a translation of the code): the host of an
`https` URL is the text between the scheme and the first following
slash, and it must be one of the two Shopify hosts the code names. -/

/-- Host component of an `https://` URL, per the claim's wording. -/
def specHost (s : List Char) : List Char :=
  (s.drop "https://".data.length).takeWhile (fun c => !(c == '/'))

/-- Claim-side image predicate: an `https` URL whose host is one of the
allow-listed Shopify hosts. -/
def specImageOk (v : JSVal) : Bool :=
  match v with
  | .str s =>
    "https://".data.isPrefixOf s &&
    (specHost s == "cdn.shopify.com".data || specHost s == "shopify.com".data)
  | _ => false

/-- Claim-side item predicate for C1: the five field predicates with the
image field read as a host allow-list. -/
def specItemValid (item : CandidateItem) : Bool :=
  idOk item.id && titleOk item.title && priceOk item.price &&
  specImageOk item.image && quantityOk item.quantity

/-! ## Cart validation (`SecurityManager.validateCart`) -/

/-- `SecurityManager.validateCart`: `none` models a non-array argument.
Returns the thrown message as `Except.error` and the list of all events
logged during the call, in order. -/
def validateCart (input : Option (List CandidateItem)) :
    Except String (List CandidateItem) × List String :=
  match input with
  | none => (.error "Cart must be an array", ["INVALID_CART_FORMAT"])
  | some items =>
    if items.length == 0 then
      (.error "Cart cannot be empty", ["EMPTY_CART_ATTEMPT"])
    else if 50 < items.length then
      (.error "Too many items in cart", ["CART_TOO_LARGE"])
    else
      let results := items.map validateCartItem
      let events := (results.map Prod.snd).flatten
      let validated := (results.map Prod.fst).filterMap id
      if !(validated.length == items.length) then
        (.error "Invalid items detected in cart", events ++ ["INVALID_ITEMS_IN_CART"])
      else
        (.ok validated, events)

/-- The concrete cart item of the specification's scenario. -/
def hoodie : CandidateItem :=
  { id := .str "gid://shopify/Product/1".data
    title := .str "Green Hoodie".data
    price := .num (mkRat 2999 100)
    image := .str "https://cdn.shopify.com/x.jpg".data
    quantity := .num 1 }

/-- The scenario item with its id replaced by `"abc"`. -/
def hoodieBadId : CandidateItem :=
  { hoodie with id := .str "abc".data }

/-- An item that passes every code check but whose image URL lives on a
non-Shopify host, the allow-listed host name appearing only in the URL
path. -/
def badHostItem : CandidateItem :=
  { hoodie with image := .str "https://evil.com/cdn.shopify.com".data }

/-! ## Rate limiting (`SecurityManager.checkRateLimit`)

The store is a JavaScript `Map` from the string key
`` `${operation}-${now}` `` to the recorded timestamp, modelled as an
association list in insertion order where `set` overwrites the value of
an existing key in place.  `Date.now()` is modelled as an integer
millisecond count or `NaN`; every comparison against `NaN` is false. -/

/-- A `Date.now()` reading: an integer millisecond count, or an invalid
(`NaN`) reading. -/
inductive JSTime where
  | nan
  | int (n : Int)
deriving DecidableEq

/-- Subtraction of a constant, as in `now - RATE_LIMIT_WINDOW`. -/
def JSTime.sub : JSTime → Int → JSTime
  | .nan, _ => .nan
  | .int n, m => .int (n - m)

/-- JavaScript `<` on the stored timestamps: false whenever `NaN` is
involved. -/
def JSTime.ltB : JSTime → JSTime → Bool
  | .int a, .int b => a < b
  | _, _ => false

/-- JavaScript `>=` on the stored timestamps: false whenever `NaN` is
involved. -/
def JSTime.geB : JSTime → JSTime → Bool
  | .int a, .int b => b ≤ a
  | _, _ => false

/-- Rendering of a timestamp into the Map key, as JavaScript string
interpolation does: decimal digits, or the text `NaN`. -/
def timeChars : JSTime → List Char
  | .nan => "NaN".data
  | .int n => if n < 0 then '-' :: natChars (-n).toNat else natChars n.toNat

/-- The rate-limit store. -/
abbrev RLStore := List (List Char × JSTime)

/-- The Map key `` `${operation}-${now}` ``. -/
def mkKey (op : List Char) (now : JSTime) : List Char :=
  op ++ '-' :: timeChars now

/-- `Map.prototype.set`: overwrite the value of an existing key in
place, otherwise append. -/
def mapSet : RLStore → List Char → JSTime → RLStore
  | [], k, v => [(k, v)]
  | (k', v') :: rest, k, v =>
    if k' == k then (k', v) :: rest else (k', v') :: mapSet rest k v

/-- The in-window request count of `checkRateLimit`: entries whose key
starts with the operation name and whose timestamp is at least
`windowStart`. -/
def countInWindow (op : List Char) (windowStart : JSTime) (store : RLStore) : Nat :=
  (store.filter (fun e => op.isPrefixOf e.1 && e.2.geB windowStart)).length

/-- Result of one `checkRateLimit` call: the boolean returned, the store
afterwards, and the security events logged. -/
structure RLResult where
  allowed : Bool
  store : RLStore
  events : List String
deriving DecidableEq

/-- `SecurityManager.checkRateLimit`: purge entries older than the
window start across all operations, count the remaining entries whose
key starts with the requested operation, reject at 10 without recording,
otherwise record `now` under `` `${operation}-${now}` ``. -/
def checkRateLimit (op : List Char) (now : JSTime) (store : RLStore) : RLResult :=
  let windowStart := now.sub 60000
  let key := mkKey op now
  let cleaned := store.filter (fun e => !(e.2.ltB windowStart))
  let requestsInWindow := countInWindow op windowStart cleaned
  if 10 ≤ requestsInWindow then
    ⟨false, cleaned, ["RATE_LIMIT_EXCEEDED"]⟩
  else
    ⟨true, mapSet cleaned key now, []⟩

/-- Runs a sequence of `checkRateLimit` calls, returning the list of
returned booleans and the final store. -/
def runCalls : List (List Char × JSTime) → RLStore → List Bool × RLStore
  | [], s => ([], s)
  | (op, t) :: rest, s =>
    let r := checkRateLimit op t s
    let (bs, s') := runCalls rest r.store
    (r.allowed :: bs, s')

/-! ## CSRF tokens (`generateCSRFToken` / `validateCSRFToken`)

`btoa`/`atob` are the platform base64 codec; the token space is
modelled abstractly as either a well-formed encoding carrying its
payload, or a string on which `atob` throws. -/

/-- A candidate CSRF token: a well-formed base64 encoding of a payload,
or a malformed string on which `atob` throws. -/
inductive B64 where
  | enc (payload : List Char)
  | malformed
deriving DecidableEq

/-- `SecurityManager.generateCSRFToken` at clock reading `now` with
nonce `random`: `btoa` of `` `${timestamp}:${random}` ``. -/
def generateCSRFToken (now : Nat) (random : List Char) : B64 :=
  .enc (natChars now ++ ':' :: random)

/-- The first segment of `payload.split(':')`, the part the verifier
reads. -/
def firstSegment (payload : List Char) : List Char :=
  payload.takeWhile (fun c => !(c == ':'))

/-- Whether the decoded token's age exceeds `maxAge`: false when the
timestamp does not parse (`NaN > maxAge` is false in JavaScript). -/
def tokenAgeExceeds (payload : List Char) (now maxAge : Int) : Bool :=
  match parseInt (firstSegment payload) with
  | some ts => decide (now - ts > maxAge)
  | none => false

/-- `SecurityManager.validateCSRFToken`: decode (a malformed encoding
throws into the catch block, which logs `CSRF_TOKEN_INVALID`), extract
the timestamp, compute the age and compare against `maxAge` (default
3600000 ms), logging `CSRF_TOKEN_EXPIRED` on expiry. -/
def validateCSRFToken (token : B64) (now : Int) (maxAge : Int) : Bool × List String :=
  match token with
  | .malformed => (false, ["CSRF_TOKEN_INVALID"])
  | .enc payload =>
    match parseInt (firstSegment payload) with
    | some ts =>
      if now - ts > maxAge then (false, ["CSRF_TOKEN_EXPIRED"]) else (true, [])
    | none => (true, [])

/-! ## Input sanitization (`SecurityManager.sanitizeInput`) -/

/-- The value returned by `sanitizeInput`: a string, or (from the
`'number'` branch) a number. -/
inductive SanOut where
  | str (s : List Char)
  | num (q : ℚ)
deriving DecidableEq

/-- `SecurityManager.sanitizeInput`: a non-string input returns `''`
before the type switch; `'text'` trims, truncates to 100 and
HTML-escapes; `'email'` trims, lowercases and truncates to 100;
`'number'` parses a float and clamps to `[0, 999999]` with `0` on parse
failure; any other kind trims and HTML-escapes. -/
def sanitizeInput (input : JSVal) (ty : List Char) : SanOut :=
  match input with
  | .str s =>
    if ty == "text".data then
      .str (escapeHTMLChars ((trimChars s).take 100))
    else if ty == "email".data then
      .str ((lowerChars (trimChars s)).take 100)
    else if ty == "number".data then
      match parseFloat s with
      | none => .num 0
      | some q => .num (max 0 (min q 999999))
    else
      .str (escapeHTMLChars (trimChars s))
  | _ => .str []

/-! ## Security log persistence (`SecurityManager.storeSecurityLog`)

`localStorage` is modelled by the parse outcome of the value stored
under `security-logs`: absent (`getItem` returned `null`), a JSON array
of entries, or a value on which `JSON.parse` throws (or which is not an
array, so that `logs.push` throws); both throwing paths land in the same
catch block.  Entries are opaque and modelled as strings. -/

/-- The parsed state of the persisted `security-logs` value. -/
inductive StoredBuf where
  | ok (logs : List String)
  | bad
deriving DecidableEq

/-- `SecurityManager.storeSecurityLog`: read the existing buffer (`null`
becomes `'[]'`), append the entry, keep only the most recent 100, write
back; any exception is caught and the write is skipped. -/
def storeSecurityLog (storage : Option StoredBuf) (entry : String) :
    Option StoredBuf :=
  match storage with
  | none =>
    some (.ok [entry])
  | some (.ok logs) =>
    let l := logs ++ [entry]
    some (.ok (if 100 < l.length then l.drop (l.length - 100) else l))
  | some .bad => some .bad

/-! ## The cart store (`addToCart` in src/src/scripts/app.js)

The claim concerns the local-cart update performed once rate limiting
and item validation have passed, so the embedded operation acts on the
cart list and the validated item. -/

/-- An entry of the in-memory cart: a validated item, with the fields
typed as validation guarantees them. -/
structure CartEntry where
  id : List Char
  title : List Char
  price : ℚ
  image : List Char
  quantity : ℚ
deriving DecidableEq

/-- `existingItem.quantity += 1`: bump the quantity of the first entry
with the given id (the entry `Array.prototype.find` returns). -/
def bumpFirst : List CartEntry → List Char → List CartEntry
  | [], _ => []
  | e :: rest, pid =>
    if e.id == pid then { e with quantity := e.quantity + 1 } :: rest
    else e :: bumpFirst rest pid

/-- The cart mutation of `window.addToCart` (src/src/scripts/app.js):
if an entry with the validated item's id exists, abort at quantity 10 or
increment it; otherwise abort at 50 entries or append.  The boolean
reports whether the cart was mutated. -/
def addToCart (cart : List CartEntry) (v : CartEntry) : List CartEntry × Bool :=
  match cart.find? (fun e => e.id == v.id) with
  | some existing =>
    if 10 ≤ existing.quantity then (cart, false)
    else (bumpFirst cart v.id, true)
  | none =>
    if 50 ≤ cart.length then (cart, false)
    else (cart ++ [v], true)

/-- A concrete validated cart entry. -/
def entA : CartEntry :=
  { id := "gid://shopify/Product/1".data
    title := "T".data
    price := 5
    image := "https://cdn.shopify.com/i.jpg".data
    quantity := 5 }

/-- The same entry already at the quantity cap. -/
def entA10 : CartEntry :=
  { entA with quantity := 10 }

/-- The incoming validated item, always carrying quantity 1. -/
def entV : CartEntry :=
  { entA with quantity := 1 }

/-! ## Helper lemmas -/

theorem jsTruthy_of_idOk (v : JSVal) (h : idOk v = true) : jsTruthy v = true := by
  cases v with
  | str s =>
    cases s with
    | nil => exact absurd h (by decide)
    | cons c t => rfl
  | num q => simp [idOk] at h
  | other => simp [idOk] at h

theorem jsTruthy_of_titleOk (v : JSVal) (h : titleOk v = true) : jsTruthy v = true := by
  cases v with
  | str s =>
    cases s with
    | nil => exact absurd h (by decide)
    | cons c t => rfl
  | num q => simp [titleOk] at h
  | other => simp [titleOk] at h

theorem jsTruthy_of_imageOk (v : JSVal) (h : imageOk v = true) : jsTruthy v = true := by
  cases v with
  | str s =>
    cases s with
    | nil => exact absurd h (by decide)
    | cons c t => rfl
  | num q => simp [imageOk] at h
  | other => simp [imageOk] at h

theorem jsTruthy_of_priceOk (v : JSVal) (h : priceOk v = true) : jsTruthy v = true := by
  cases v with
  | str s => simp [priceOk] at h
  | num q =>
    simp only [priceOk, Bool.and_eq_true, decide_eq_true_eq] at h
    have hq : q ≠ 0 := ne_of_gt h.1
    simp [jsTruthy, hq]
  | other => simp [priceOk] at h

theorem jsTruthy_of_quantityOk (v : JSVal) (h : quantityOk v = true) : jsTruthy v = true := by
  cases v with
  | str s => simp [quantityOk] at h
  | num q =>
    simp only [quantityOk, Bool.and_eq_true, decide_eq_true_eq] at h
    have hq : q ≠ 0 := ne_of_gt (lt_of_lt_of_le zero_lt_one h.1.2)
    simp [jsTruthy, hq]
  | other => simp [quantityOk] at h

theorem validateCartItem_fst (item : CandidateItem) :
    (validateCartItem item).1 = if itemValid item then some item else none := by
  unfold validateCartItem itemValid
  cases hid : idOk item.id
  · simp
  · cases htitle : titleOk item.title
    · simp
    · cases hprice : priceOk item.price
      · simp
      · cases himage : imageOk item.image
        · simp
        · cases hqty : quantityOk item.quantity
          · simp
          · simp [jsTruthy_of_idOk _ hid, jsTruthy_of_titleOk _ htitle,
              jsTruthy_of_priceOk _ hprice, jsTruthy_of_imageOk _ himage,
              jsTruthy_of_quantityOk _ hqty]

theorem validateCartItem_snd_of_none (item : CandidateItem)
    (h : (validateCartItem item).1 = none) :
    ∃ e, (validateCartItem item).2 = [e] ∧ eventNamesFailedField e item = true := by
  unfold validateCartItem at h ⊢
  cases hid : idOk item.id
  · exact ⟨"INVALID_PRODUCT_ID", rfl,
      by show (!(idOk item.id)) = true; simp [hid]⟩
  · rw [hid] at h
    cases htitle : titleOk item.title
    · exact ⟨"INVALID_PRODUCT_TITLE", by simp [hid, htitle],
        by show (!(titleOk item.title)) = true; simp [htitle]⟩
    · rw [htitle] at h
      cases hprice : priceOk item.price
      · exact ⟨"INVALID_PRODUCT_PRICE", by simp [hid, htitle, hprice],
          by show (!(priceOk item.price)) = true; simp [hprice]⟩
      · rw [hprice] at h
        cases himage : imageOk item.image
        · exact ⟨"INVALID_PRODUCT_IMAGE", by simp [hid, htitle, hprice, himage],
            by show (!(imageOk item.image)) = true; simp [himage]⟩
        · rw [himage] at h
          cases hqty : quantityOk item.quantity
          · exact ⟨"INVALID_PRODUCT_QUANTITY",
              by simp [hid, htitle, hprice, himage, hqty],
              by show (!(quantityOk item.quantity)) = true; simp [hqty]⟩
          · rw [hqty] at h
            simp [jsTruthy_of_idOk _ hid, jsTruthy_of_titleOk _ htitle,
              jsTruthy_of_priceOk _ hprice, jsTruthy_of_imageOk _ himage,
              jsTruthy_of_quantityOk _ hqty] at h

/-! ## Claim C1 -/

/-- C1, as stated, is false on the code: the claim reads the image check
as a host allow-list, but `validateCartItem` only tests substring
containment, so `badHostItem` — whose image URL lives on `evil.com` with
`cdn.shopify.com` only in the path — is accepted while the claim's five
predicates (with `specImageOk` as the image predicate) reject it. -/
theorem C1_counterexample :
    ¬ ∀ item : CandidateItem,
        ((validateCartItem item).1.isSome = true ↔ specItemValid item = true) := by
  intro hall
  have h := (hall badHostItem).mp (by decide)
  have h2 : specItemValid badHostItem = false := by decide
  exact Bool.false_ne_true (h2.symm.trans h)

/-- C1, amended: `validateCartItem` returns non-null iff all five field
checks of the code hold — with the image predicate being "starts with
`https://` and contains `cdn.shopify.com` or `shopify.com` as a
substring", not a host allow-list — and on any failure it returns null
and emits exactly one security event naming the first failing field. -/
theorem C1_amended (item : CandidateItem) :
    ((validateCartItem item).1.isSome = true ↔ itemValid item = true) ∧
    ((validateCartItem item).1 = none →
      ∃ e, (validateCartItem item).2 = [e] ∧ eventNamesFailedField e item = true) := by
  constructor
  · rw [validateCartItem_fst]
    cases h : itemValid item <;> simp [h]
  · exact validateCartItem_snd_of_none item

/-- Witness for C1: the scenario item with id `"abc"` fails, logging
exactly the one event that names the id field. -/
theorem C1_witness :
    ∃ e, (validateCartItem hoodieBadId).2 = [e] ∧
      eventNamesFailedField e hoodieBadId = true :=
  (C1_amended hoodieBadId).2 (by decide)

/-! ## Claim C5 -/

theorem filterMap_id_length_le {α : Type} (l : List (Option α)) :
    (l.filterMap id).length ≤ l.length := by
  induction l with
  | nil => simp
  | cons a t ih =>
    cases a with
    | none => simp only [List.filterMap_cons, id_eq]; simp; omega
    | some b => simp only [List.filterMap_cons, id_eq]; simpa using ih

theorem filterMap_id_length_lt {α : Type} (l : List (Option α)) (h : none ∈ l) :
    (l.filterMap id).length < l.length := by
  induction l with
  | nil => simp at h
  | cons a t ih =>
    cases a with
    | none =>
      simp only [List.filterMap_cons, id_eq]
      have := filterMap_id_length_le t
      simp only [List.length_cons]
      omega
    | some b =>
      have ht : none ∈ t := by simpa using h
      simp only [List.filterMap_cons, id_eq]
      simpa using ih ht

/-- C5: `validateCart` throws a distinct message in each of its four
failure cases, and in the invalid-element case it maps `validateCartItem`
over every element first, so the event log contains the event of every
invalid item (each invalid item contributing exactly one event), before
the final `INVALID_ITEMS_IN_CART` event; the specification's concrete
scenario behaves as stated. -/
theorem C5_validateCart :
    (validateCart none = (.error "Cart must be an array", ["INVALID_CART_FORMAT"])) ∧
    (validateCart (some []) = (.error "Cart cannot be empty", ["EMPTY_CART_ATTEMPT"])) ∧
    (∀ items : List CandidateItem, 50 < items.length →
      validateCart (some items) = (.error "Too many items in cart", ["CART_TOO_LARGE"])) ∧
    (∀ items : List CandidateItem, items ≠ [] → items.length ≤ 50 →
      (∃ x ∈ items, (validateCartItem x).1 = none) →
      validateCart (some items) =
        (.error "Invalid items detected in cart",
          (items.map fun i => (validateCartItem i).2).flatten ++ ["INVALID_ITEMS_IN_CART"]) ∧
      ∀ x ∈ items, (validateCartItem x).1 = none →
        ∃ e, (validateCartItem x).2 = [e] ∧
          e ∈ (items.map fun i => (validateCartItem i).2).flatten) ∧
    (["Cart must be an array", "Cart cannot be empty", "Too many items in cart",
      "Invalid items detected in cart"].Nodup) ∧
    (validateCart (some [hoodie]) = (.ok [hoodie], [])) ∧
    (validateCart (some [hoodieBadId]) =
      (.error "Invalid items detected in cart",
        ["INVALID_PRODUCT_ID", "INVALID_ITEMS_IN_CART"])) := by
  refine ⟨rfl, rfl, ?_, ?_, by decide, by decide, by decide⟩
  · intro items hlen
    have h0 : (items.length == 0) = false := beq_eq_false_iff_ne.mpr (by omega)
    simp only [validateCart]
    rw [h0]
    simp [hlen]
  · intro items hne hle hex
    have hne0 : items.length ≠ 0 := fun hc => hne (List.length_eq_zero.mp hc)
    have h0 : (items.length == 0) = false := beq_eq_false_iff_ne.mpr hne0
    have h1 : ¬ (50 < items.length) := by omega
    obtain ⟨x, hx, hxn⟩ := hex
    have hmem : (none : Option CandidateItem) ∈
        (items.map validateCartItem).map Prod.fst := by
      rw [← hxn]
      exact List.mem_map_of_mem _ (List.mem_map_of_mem _ hx)
    have hlt := filterMap_id_length_lt _ hmem
    simp only [List.length_map] at hlt
    have hb : ((((items.map validateCartItem).map Prod.fst).filterMap id).length
        == items.length) = false := beq_eq_false_iff_ne.mpr (by omega)
    constructor
    · simp only [validateCart]
      rw [h0]
      simp only [Bool.false_eq_true, if_false, if_neg h1]
      rw [hb]
      simp [List.map_map, Function.comp_def]
    · intro y hy hyn
      obtain ⟨e, he, _⟩ := validateCartItem_snd_of_none y hyn
      refine ⟨e, he, ?_⟩
      rw [List.mem_flatten]
      exact ⟨(validateCartItem y).2, List.mem_map_of_mem _ hy, by rw [he]; simp⟩

/-- Witness for C5: one invalid item in a one-item cart produces the
"Invalid items detected in cart" error with that item's event in the
log. -/
theorem C5_witness :
    validateCart (some [hoodieBadId]) =
      (.error "Invalid items detected in cart",
        ([hoodieBadId].map fun i => (validateCartItem i).2).flatten ++
          ["INVALID_ITEMS_IN_CART"]) :=
  (C5_validateCart.2.2.2.1 [hoodieBadId] (by decide) (by decide)
    ⟨hoodieBadId, by decide, by decide⟩).1

/-! ## Claim C10 -/

/-- C10: `sanitizeInput` returns the empty string for every non-string
input under every kind, including `'number'`; by contrast, a string that
fails to parse under `'number'` yields the numeric default `0`. -/
theorem C10_sanitizeInput :
    (∀ (v : JSVal) (ty : List Char), v.isStr = false → sanitizeInput v ty = .str []) ∧
    sanitizeInput (.str "abc".data) "number".data = .num 0 := by
  constructor
  · intro v ty hv
    cases v with
    | str s => simp [JSVal.isStr] at hv
    | num q => rfl
    | other => rfl
  · decide

/-- Witness for C10: the number `5` passed with kind `'number'` comes
back as the empty string, not as a number. -/
theorem C10_witness :
    sanitizeInput (JSVal.num 5) "number".data = SanOut.str [] :=
  C10_sanitizeInput.1 (JSVal.num 5) "number".data (by decide)

/-! ## Claim C7 -/

/-- C7 names a tag-stripping step for the `'email'` kind, and the
repository's own test (part_003, "should sanitize email input") expects
`<script>` to be removed; the code's `'email'` branch only trims,
lowercases and truncates.  On the test's exact input the tags survive
verbatim. -/
theorem C7_email_eval :
    sanitizeInput
        (.str "test<script>alert(\"xss\")</script>@example.com".data)
        "email".data
      = .str "test<script>alert(\"xss\")</script>@example.com".data ∧
    containsSub "<script>".data
      "test<script>alert(\"xss\")</script>@example.com".data = true := by
  decide

/-! ## Claim C9 -/

/-- C9, as stated, requires an unreadable or corrupt buffer to be
treated as empty so that the new entry is always persisted; on a corrupt
buffer the code's catch block instead skips the write entirely, leaving
the stored value unchanged and the entry dropped. -/
theorem C9_counterexample :
    storeSecurityLog (some StoredBuf.bad) "NEW_EVENT" = some StoredBuf.bad := by
  rfl

theorem mem_drop_append_singleton {α : Type} (logs : List α) (entry : α)
    (k : Nat) (hk : k ≤ logs.length) : entry ∈ (logs ++ [entry]).drop k := by
  rw [List.drop_append_eq_append_drop]
  have h0 : k - logs.length = 0 := by omega
  rw [h0]
  simp

/-- C9, amended: a missing buffer (`getItem` returned `null`) is treated
as empty, an appended entry is truncated to the most recent 100 before
the write-back, and the entry is then among at most 100 newest entries;
but a corrupt (unparsable) buffer causes the write to be skipped and the
entry to be dropped — the call still never throws. -/
theorem C9_amended (storage : Option StoredBuf) (entry : String) :
    (storage = none → storeSecurityLog storage entry = some (.ok [entry])) ∧
    (∀ logs, storage = some (.ok logs) →
      storeSecurityLog storage entry =
        some (.ok ((logs ++ [entry]).drop (logs.length + 1 - 100))) ∧
      entry ∈ (logs ++ [entry]).drop (logs.length + 1 - 100) ∧
      ((logs ++ [entry]).drop (logs.length + 1 - 100)).length ≤ 100) ∧
    (storage = some .bad → storeSecurityLog storage entry = storage) := by
  refine ⟨?_, ?_, ?_⟩
  · intro h; subst h; rfl
  · intro logs h
    subst h
    refine ⟨?_, ?_, ?_⟩
    · simp only [storeSecurityLog]
      by_cases hl : 100 < (logs ++ [entry]).length
      · rw [if_pos hl]
        simp [List.length_append]
      · rw [if_neg hl]
        simp only [List.length_append, List.length_cons, List.length_nil] at hl
        have h2 : logs.length + 1 - 100 = 0 := by omega
        rw [h2, List.drop_zero]
    · exact mem_drop_append_singleton logs entry _ (by omega)
    · simp only [List.length_drop, List.length_append, List.length_cons,
        List.length_nil]
      omega
  · intro h; subst h; rfl

/-- Witness for C9: recording onto a stored buffer of two entries keeps
both and appends the third. -/
theorem C9_witness :
    storeSecurityLog (some (.ok ["a", "b"])) "c" =
      some (.ok ((["a", "b"] ++ ["c"]).drop (["a", "b"].length + 1 - 100))) ∧
    "c" ∈ (["a", "b"] ++ ["c"]).drop (["a", "b"].length + 1 - 100) ∧
    ((["a", "b"] ++ ["c"]).drop (["a", "b"].length + 1 - 100)).length ≤ 100 :=
  (C9_amended (some (.ok ["a", "b"])) "c").2.1 ["a", "b"] rfl

/-! ## Claim C8 -/

/-- Every stored timestamp fails a `>=` comparison against `NaN`. -/
theorem geB_nan (x : JSTime) : x.geB JSTime.nan = false := by
  cases x <;> rfl

theorem countInWindow_nan (op : List Char) (s : RLStore) :
    countInWindow op JSTime.nan s = 0 := by
  induction s with
  | nil => rfl
  | cons e t ih =>
    simp only [countInWindow, List.filter_cons, geB_nan, Bool.and_false] at ih ⊢
    exact ih

/-- C8, as stated, requires the anomaly to be logged as a security
event; with an invalid (`NaN`) clock reading the call is allowed but
emits no event at all. -/
theorem C8_counterexample :
    (checkRateLimit "cart".data JSTime.nan []).allowed = true ∧
    (checkRateLimit "cart".data JSTime.nan []).events = [] := by
  decide

/-- C8, amended: with an invalid clock reading `checkRateLimit` does not
throw and allows the operation (fail open) — every comparison against
`NaN` is false, so nothing is purged and the in-window count is zero —
but no security event records the anomaly. -/
theorem C8_amended (op : List Char) (s : RLStore) :
    (checkRateLimit op JSTime.nan s).allowed = true ∧
    (checkRateLimit op JSTime.nan s).events = [] := by
  constructor <;>
    (simp only [checkRateLimit, JSTime.sub]
     rw [countInWindow_nan]
     simp)

/-! ## Claim C3 -/

/-- C3, as stated, is false: a single accepted call under the operation
`cartel` makes the in-window request count computed for the distinct
operation `cart` equal to 1, because the count filters keys by
`startsWith(operation)` and `cart` is a prefix of the stored key
`cartel-1000000`. -/
theorem C3_counterexample :
    countInWindow "cart".data ((JSTime.int 1000000).sub 60000)
      (checkRateLimit "cartel".data (JSTime.int 1000000) []).store = 1 := by
  decide

theorem isPrefixOf_append_cons_false (a b : List Char) (c : Char) (d : List Char)
    (hab : a.isPrefixOf b = false) (hba : b.isPrefixOf a = false) :
    a.isPrefixOf (b ++ c :: d) = false := by
  induction a generalizing b with
  | nil => simp [List.isPrefixOf] at hab
  | cons x a' ih =>
    cases b with
    | nil => simp [List.isPrefixOf] at hba
    | cons y b' =>
      show (x == y && a'.isPrefixOf (b' ++ c :: d)) = false
      cases hxy : x == y
      · simp
      · have hab' : a'.isPrefixOf b' = false := by
          have : (x == y && a'.isPrefixOf b') = false := hab
          rwa [hxy, Bool.true_and] at this
        have hba' : b'.isPrefixOf a' = false := by
          have : (y == x && b'.isPrefixOf a') = false := hba
          have hyx : (y == x) = true := by
            rw [beq_iff_eq] at hxy ⊢
            exact hxy.symm
          rwa [hyx, Bool.true_and] at this
        simp [ih b' hab' hba']

theorem isPrefixOf_mkKey_false (a b : List Char) (t : JSTime)
    (hab : a.isPrefixOf b = false) (hba : b.isPrefixOf a = false) :
    a.isPrefixOf (mkKey b t) = false :=
  isPrefixOf_append_cons_false a b '-' (timeChars t) hab hba

theorem countInWindow_mapSet (a : List Char) (w : JSTime) (s : RLStore)
    (k : List Char) (v : JSTime) (hk : a.isPrefixOf k = false) :
    countInWindow a w (mapSet s k v) = countInWindow a w s := by
  induction s with
  | nil => simp [mapSet, countInWindow, List.filter_cons, hk]
  | cons e t ih =>
    simp only [mapSet]
    by_cases he : (e.1 == k) = true
    · rw [if_pos he]
      have he' : a.isPrefixOf e.1 = false := by
        rw [eq_of_beq he]
        exact hk
      simp [countInWindow, List.filter_cons, he']
    · rw [if_neg he]
      simp only [countInWindow, List.filter_cons] at ih ⊢
      cases hp : (a.isPrefixOf e.1 && e.2.geB w) <;> simp [hp, ih]

/-- C3, amended: an accepted call recorded under one operation is
counted for a requested operation exactly when the requested name is a
string prefix of the stored key; in particular, for two operation names
neither of which is a prefix of the other, a call recorded under one
never changes the in-window request count of the other. -/
theorem C3_amended (a b : List Char) (t v w : JSTime) (s : RLStore)
    (hab : a.isPrefixOf b = false) (hba : b.isPrefixOf a = false) :
    countInWindow a w (mapSet s (mkKey b t) v) = countInWindow a w s :=
  countInWindow_mapSet a w s (mkKey b t) v (isPrefixOf_mkKey_false a b t hab hba)

/-- Witness for C3: recording a `checkout` call leaves the count for
`add-to-cart` unchanged. -/
theorem C3_witness :
    countInWindow "add-to-cart".data (JSTime.int 0)
      (mapSet [] (mkKey "checkout".data (JSTime.int 5)) (JSTime.int 5)) =
    countInWindow "add-to-cart".data (JSTime.int 0) [] :=
  C3_amended "add-to-cart".data "checkout".data (JSTime.int 5) (JSTime.int 5)
    (JSTime.int 0) [] (by decide) (by decide)

/-! ## Claim C2 -/

/-- C2 is contradicted by the code on same-millisecond bursts: eleven
`checkRateLimit('cart')` calls all at clock reading 1000000 are all
accepted, because every accepted call stores under the single colliding
Map key `cart-1000000` and the in-window count never exceeds 1.  The
repository's own test ("should block requests exceeding rate limit")
expects the eleventh rapid call to be rejected. -/
theorem C2_code_bug_eval :
    (runCalls (List.replicate 11 ("cart".data, JSTime.int 1000000)) []).1 =
      List.replicate 11 true := by
  decide

/-! ## Claim C4 -/

theorem digitVal_digitChar (d : Nat) (h : d < 10) :
    digitVal (digitChar d) = d := by
  interval_cases d <;> rfl

theorem natCharsAux_all (fuel n : Nat) (h : n < fuel) :
    ∀ c ∈ natCharsAux fuel n, ∃ d, d < 10 ∧ c = digitChar d := by
  induction fuel generalizing n with
  | zero => omega
  | succ f ih =>
    simp only [natCharsAux]
    by_cases h10 : n < 10
    · rw [if_pos h10]
      intro c hc
      simp at hc
      exact ⟨n, h10, hc⟩
    · rw [if_neg h10]
      intro c hc
      rcases List.mem_append.mp hc with hc1 | hc2
      · have hdiv : n / 10 < f := by
          have := Nat.div_lt_self (by omega : 0 < n) (by omega : 1 < 10)
          omega
        exact ih (n / 10) hdiv c hc1
      · simp at hc2
        exact ⟨n % 10, Nat.mod_lt _ (by omega), hc2⟩

theorem natChars_all (n : Nat) :
    ∀ c ∈ natChars n, ∃ d, d < 10 ∧ c = digitChar d :=
  natCharsAux_all (n + 1) n (by omega)

theorem natCharsAux_head (fuel n : Nat) (h : n < fuel) :
    ∃ d rest, d < 10 ∧ natCharsAux fuel n = digitChar d :: rest := by
  induction fuel generalizing n with
  | zero => omega
  | succ f ih =>
    simp only [natCharsAux]
    by_cases h10 : n < 10
    · rw [if_pos h10]
      exact ⟨n, [], h10, rfl⟩
    · rw [if_neg h10]
      have hdiv : n / 10 < f := by
        have := Nat.div_lt_self (by omega : 0 < n) (by omega : 1 < 10)
        omega
      obtain ⟨d, rest, hd, heq⟩ := ih (n / 10) hdiv
      exact ⟨d, rest ++ [digitChar (n % 10)], hd, by rw [heq]; rfl⟩

theorem foldl_digits_natCharsAux (fuel : Nat) :
    ∀ n a : Nat, n < fuel →
      (natCharsAux fuel n).foldl (fun acc c => 10 * acc + digitVal c) a =
        a * 10 ^ (natCharsAux fuel n).length + n := by
  induction fuel with
  | zero => omega
  | succ f ih =>
    intro n a h
    by_cases h10 : n < 10
    · simp only [natCharsAux, if_pos h10, List.foldl_cons, List.foldl_nil,
        List.length_cons, List.length_nil, digitVal_digitChar n h10]
      ring
    · have hdiv : n / 10 < f := by
        have := Nat.div_lt_self (by omega : 0 < n) (by omega : 1 < 10)
        omega
      simp only [natCharsAux, if_neg h10, List.foldl_append, List.foldl_cons,
        List.foldl_nil, List.length_append, List.length_cons, List.length_nil,
        digitVal_digitChar (n % 10) (Nat.mod_lt _ (by omega))]
      rw [ih (n / 10) a hdiv]
      have hdm : 10 * (n / 10) + n % 10 = n := Nat.div_add_mod n 10
      calc 10 * (a * 10 ^ (natCharsAux f (n / 10)).length + n / 10) + n % 10
          = a * (10 ^ (natCharsAux f (n / 10)).length * 10) +
              (10 * (n / 10) + n % 10) := by ring
        _ = a * 10 ^ ((natCharsAux f (n / 10)).length + (0 + 1)) + n := by
              rw [hdm]
              ring

theorem parseDigits_natChars (n : Nat) : parseDigits (natChars n) = n := by
  have h := foldl_digits_natCharsAux (n + 1) n 0 (by omega)
  simpa [parseDigits, natChars] using h

theorem takeWhile_eq_self_of_all {α : Type} (p : α → Bool) :
    ∀ l : List α, (∀ c ∈ l, p c = true) → l.takeWhile p = l := by
  intro l
  induction l with
  | nil => intro _; rfl
  | cons c t ih =>
    intro h
    rw [List.takeWhile_cons, h c (by simp)]
    simp [ih fun x hx => h x (by simp [hx])]

theorem takeWhile_until_colon (l r : List Char)
    (hall : ∀ c ∈ l, ∃ d, d < 10 ∧ c = digitChar d) :
    (l ++ ':' :: r).takeWhile (fun c => !(c == ':')) = l := by
  induction l with
  | nil =>
    rw [List.nil_append, List.takeWhile_cons]
    rfl
  | cons c t ih =>
    obtain ⟨d, hd, hcd⟩ := hall c (by simp)
    have hne : (!(c == ':')) = true := by
      subst hcd
      interval_cases d <;> rfl
    rw [List.cons_append, List.takeWhile_cons, hne]
    simp only [if_true]
    rw [ih fun x hx => hall x (by simp [hx])]

theorem hexMark_of_digits (l : List Char)
    (hall : ∀ c ∈ l, ∃ d, d < 10 ∧ c = digitChar d) : hexMark l = false := by
  match l with
  | [] => rfl
  | [c] => rfl
  | c0 :: c1 :: r =>
    obtain ⟨d1, hd1, h1⟩ := hall c1 (by simp)
    have hx : (c1 == 'x' || c1 == 'X') = false := by
      subst h1
      interval_cases d1 <;> rfl
    show (c0 == '0' && (c1 == 'x' || c1 == 'X')) = false
    rw [hx, Bool.and_false]

theorem parseIntMag_of_digits (l : List Char) (hne : l.isEmpty = false)
    (hall : ∀ c ∈ l, ∃ d, d < 10 ∧ c = digitChar d) :
    parseIntMag l = some (parseDigits l) := by
  have hdigits : l.takeWhile Char.isDigit = l := by
    refine takeWhile_eq_self_of_all _ _ fun c hc => ?_
    obtain ⟨d2, hd2, hcd⟩ := hall c hc
    subst hcd
    interval_cases d2 <;> rfl
  unfold parseIntMag
  rw [hexMark_of_digits l hall]
  simp only [Bool.false_eq_true, if_false]
  rw [hdigits, hne]
  simp

theorem parseInt_natChars (n : Nat) : parseInt (natChars n) = some (n : Int) := by
  obtain ⟨d, rest, hd, heq⟩ := natCharsAux_head (n + 1) n (by omega)
  have hall : ∀ c ∈ natChars n, ∃ d2, d2 < 10 ∧ c = digitChar d2 := natChars_all n
  have hsp : jsSpace (digitChar d) = false := by interval_cases d <;> rfl
  have hminus : (digitChar d == '-') = false := by interval_cases d <;> rfl
  have hplus : (digitChar d == '+') = false := by interval_cases d <;> rfl
  have hnc : natChars n = digitChar d :: rest := heq
  unfold parseInt
  rw [hnc, List.dropWhile_cons, hsp]
  simp only [Bool.false_eq_true, if_false, hminus, hplus]
  rw [← hnc, parseIntMag_of_digits (natChars n) (by rw [hnc]; rfl) hall,
    parseDigits_natChars]
  rfl

theorem firstSegment_token (T : Nat) (rnd : List Char) :
    firstSegment (natChars T ++ ':' :: rnd) = natChars T :=
  takeWhile_until_colon (natChars T) rnd (natChars_all T)

theorem validateCSRFToken_enc_eq (p : List Char) (now maxAge : Int) :
    validateCSRFToken (.enc p) now maxAge =
      match parseInt (firstSegment p) with
      | some ts =>
        if now - ts > maxAge then (false, ["CSRF_TOKEN_EXPIRED"]) else (true, [])
      | none => (true, []) := rfl

theorem tokenAgeExceeds_eq (p : List Char) (now maxAge : Int) :
    tokenAgeExceeds p now maxAge =
      match parseInt (firstSegment p) with
      | some ts => decide (now - ts > maxAge)
      | none => false := rfl

theorem validateCSRFToken_generate (T : Nat) (rnd : List Char) (now maxAge : Int) :
    validateCSRFToken (generateCSRFToken T rnd) now maxAge =
      if now - (T : Int) > maxAge then (false, ["CSRF_TOKEN_EXPIRED"])
      else (true, []) := by
  have h1 : validateCSRFToken (generateCSRFToken T rnd) now maxAge =
      validateCSRFToken (.enc (natChars T ++ ':' :: rnd)) now maxAge := rfl
  rw [h1, validateCSRFToken_enc_eq, firstSegment_token, parseInt_natChars]

/-- C4: `validateCSRFToken` returns false and logs `CSRF_TOKEN_INVALID`
on a malformed encoding, returns false and logs `CSRF_TOKEN_EXPIRED`
when the decoded token's age exceeds the max-age, and returns true
otherwise; a token minted at clock reading T is rejected when verified
at T+3600001 with the default max-age of 3600000 ms and accepted at
T+3599999. -/
theorem C4_validateCSRFToken :
    (∀ now maxAge : Int,
      validateCSRFToken B64.malformed now maxAge = (false, ["CSRF_TOKEN_INVALID"])) ∧
    (∀ (p : List Char) (now maxAge : Int), tokenAgeExceeds p now maxAge = true →
      validateCSRFToken (.enc p) now maxAge = (false, ["CSRF_TOKEN_EXPIRED"])) ∧
    (∀ (p : List Char) (now maxAge : Int), tokenAgeExceeds p now maxAge = false →
      validateCSRFToken (.enc p) now maxAge = (true, [])) ∧
    (∀ (T : Nat) (rnd : List Char),
      validateCSRFToken (generateCSRFToken T rnd) ((T : Int) + 3600001) 3600000 =
        (false, ["CSRF_TOKEN_EXPIRED"]) ∧
      validateCSRFToken (generateCSRFToken T rnd) ((T : Int) + 3599999) 3600000 =
        (true, [])) := by
  refine ⟨fun _ _ => rfl, ?_, ?_, ?_⟩
  · intro p now maxAge h
    rw [tokenAgeExceeds_eq] at h
    rw [validateCSRFToken_enc_eq]
    cases hp : parseInt (firstSegment p) with
    | none =>
      simp only [hp] at h
      exact absurd h Bool.false_ne_true
    | some ts =>
      simp only [hp] at h ⊢
      rw [if_pos (of_decide_eq_true h)]
  · intro p now maxAge h
    rw [tokenAgeExceeds_eq] at h
    rw [validateCSRFToken_enc_eq]
    cases hp : parseInt (firstSegment p) with
    | none => simp only [hp]
    | some ts =>
      simp only [hp] at h ⊢
      rw [if_neg (of_decide_eq_false h)]
  · intro T rnd
    constructor <;> rw [validateCSRFToken_generate]
    · rw [if_pos (by omega)]
    · rw [if_neg (by omega)]

/-- Witness for C4: a token minted at clock reading 1000 is rejected as
expired 3600001 ms later and accepted 3599999 ms later. -/
theorem C4_witness :
    validateCSRFToken (generateCSRFToken 1000 "r".data) (((1000 : Nat) : Int) + 3600001)
        3600000 = (false, ["CSRF_TOKEN_EXPIRED"]) ∧
    validateCSRFToken (generateCSRFToken 1000 "r".data) (((1000 : Nat) : Int) + 3599999)
        3600000 = (true, []) :=
  C4_validateCSRFToken.2.2.2 1000 "r".data

/-! ## Claim C6 -/

theorem find_decomp (p : CartEntry → Bool) :
    ∀ (l : List CartEntry) (e : CartEntry), l.find? p = some e →
      p e = true ∧ ∃ pre post, l = pre ++ e :: post ∧ ∀ x ∈ pre, p x = false := by
  intro l
  induction l with
  | nil => intro e h; simp at h
  | cons a t ih =>
    intro e h
    cases hpa : p a with
    | true =>
      rw [List.find?_cons_of_pos _ hpa] at h
      cases h
      exact ⟨hpa, [], t, rfl, by simp⟩
    | false =>
      rw [List.find?_cons_of_neg _ (by simp [hpa])] at h
      obtain ⟨hp, pre, post, heq, hall⟩ := ih e h
      refine ⟨hp, a :: pre, post, by rw [heq]; rfl, ?_⟩
      intro x hx
      rcases List.mem_cons.mp hx with hx1 | hx2
      · rw [hx1]; exact hpa
      · exact hall x hx2

theorem bumpFirst_decomp (pre post : List CartEntry) (e : CartEntry)
    (pid : List Char) (hpre : ∀ x ∈ pre, (x.id == pid) = false)
    (he : (e.id == pid) = true) :
    bumpFirst (pre ++ e :: post) pid =
      pre ++ { e with quantity := e.quantity + 1 } :: post := by
  induction pre with
  | nil => simp [bumpFirst, he]
  | cons a t ih =>
    have ha := hpre a (by simp)
    rw [List.cons_append]
    simp only [bumpFirst, ha]
    rw [List.cons_append, ih fun x hx => hpre x (by simp [hx])]
    simp

theorem bumpFirst_map_id (l : List CartEntry) (pid : List Char) :
    (bumpFirst l pid).map (fun x => x.id) = l.map (fun x => x.id) := by
  induction l with
  | nil => rfl
  | cons e t ih =>
    simp only [bumpFirst]
    cases he : e.id == pid
    · simp only [Bool.false_eq_true, if_false, List.map_cons, ih]
    · simp only [if_true, List.map_cons]

/-- C6: once rate limiting and validation passed, `addToCart` with an id
already in the cart increments exactly that entry's quantity (aborting
with the cart unchanged at quantity 10), never produces two entries with
the same id, appends a new id only below 50 entries, and otherwise
aborts with the cart unchanged. -/
theorem C6_addToCart (cart : List CartEntry) (v : CartEntry) :
    ((cart.map fun x => x.id).Nodup →
      (((addToCart cart v).1).map fun x => x.id).Nodup) ∧
    (∀ e, cart.find? (fun x => x.id == v.id) = some e → 10 ≤ e.quantity →
      addToCart cart v = (cart, false)) ∧
    (∀ e, cart.find? (fun x => x.id == v.id) = some e → e.quantity < 10 →
      ∃ pre post, cart = pre ++ e :: post ∧
        addToCart cart v =
          (pre ++ { e with quantity := e.quantity + 1 } :: post, true) ∧
        ∀ x ∈ pre, (x.id == v.id) = false) ∧
    (cart.find? (fun x => x.id == v.id) = none → cart.length < 50 →
      addToCart cart v = (cart ++ [v], true)) ∧
    (cart.find? (fun x => x.id == v.id) = none → 50 ≤ cart.length →
      addToCart cart v = (cart, false)) := by
  refine ⟨?_, ?_, ?_, ?_, ?_⟩
  · intro hnd
    cases hf : cart.find? (fun x => x.id == v.id) with
    | some e =>
      simp only [addToCart, hf]
      by_cases hq : 10 ≤ e.quantity
      · rw [if_pos hq]; exact hnd
      · rw [if_neg hq]
        simpa [bumpFirst_map_id] using hnd
    | none =>
      simp only [addToCart, hf]
      by_cases hl : 50 ≤ cart.length
      · rw [if_pos hl]; exact hnd
      · rw [if_neg hl]
        have hnotin : v.id ∉ cart.map fun x => x.id := by
          intro hmem
          obtain ⟨x, hx, hxid⟩ := List.mem_map.mp hmem
          have hne := List.find?_eq_none.mp hf x hx
          exact hne (beq_iff_eq.mpr hxid)
        simp [List.nodup_append, hnd, hnotin]
  · intro e he hq
    simp only [addToCart, he]
    rw [if_pos hq]
  · intro e he hq
    obtain ⟨hp, pre, post, heq, hall⟩ := find_decomp _ cart e he
    refine ⟨pre, post, heq, ?_, hall⟩
    simp only [addToCart, he]
    rw [if_neg (not_le.mpr hq), heq, bumpFirst_decomp pre post e v.id hall hp]
  · intro hf hl
    simp only [addToCart, hf]
    rw [if_neg (not_le.mpr hl)]
  · intro hf hl
    simp only [addToCart, hf]
    rw [if_pos hl]

/-- Witness for C6: adding to a cart whose matching entry already holds
quantity 10 aborts and leaves the cart unchanged. -/
theorem C6_witness :
    addToCart [entA10] entV = ([entA10], false) :=
  (C6_addToCart [entA10] entV).2.1 entA10 (by decide) (by decide)

end LP
